import Mathlib

/-!
Shallow embedding of `src/splitPhoto.py` (the sub-photo extraction pipeline).

Modelling conventions.
* Python floats (OpenCV returns `float` centers, sizes, angles and areas) are
  modelled as exact rationals `ℚ`; the comparisons the script performs on them
  (`area < min_contour_area`, `w < h`, `angle > 45.0`) are exact in `ℚ`.
* `int(...)` is Python truncation toward zero (`pyInt`).
* `cv2.threshold(gray, 240, 255, cv2.THRESH_BINARY_INV)` follows OpenCV's
  documented semantics: `dst = 0` if `src > thresh`, else `maxval`.
* `cv2.cvtColor(..., COLOR_BGR2GRAY)` uses OpenCV's fixed-point coefficients
  `(4899·R + 9617·G + 1868·B + 8192) >> 14`.
* NumPy basic slicing `a[y:y+h, x:x+w]` is modelled exactly, including
  wrap-around of negative indices and clamping of out-of-range ones.
* `cv2.findContours`, `cv2.contourArea`, `cv2.minAreaRect` and the pixel
  content of `cv2.warpAffine` are external library computations whose numeric
  output no claim depends on pointwise; they enter the embedding as function
  parameters (`fc`, `areaOf`, `rectOf`, `wp`).  The shape contract of
  `warpAffine` that the script does rely on — the rotated frame has exactly the
  size `(image.shape[1], image.shape[0])` passed as `dsize` — is built in.
* The file move (`shutil.move`), the skip diagnostic and each `cv2.imwrite`
  are modelled as an event trace (`Event`), preserving their order.
-/

/-- A colour image in OpenCV's BGR channel order: dimensions plus a total pixel
function (row, column) ↦ (b, g, r). -/
structure Image where
  width : Nat
  height : Nat
  pix : Nat → Nat → Nat × Nat × Nat

/-- A single-channel image: dimensions plus a total pixel function. -/
structure GrayImage where
  width : Nat
  height : Nat
  pix : Nat → Nat → Nat

/-- OpenCV `COLOR_BGR2GRAY` luminance of one BGR pixel, fixed-point:
`(1868·B + 9617·G + 4899·R + 8192) >> 14`. -/
def bgr2gray (p : Nat × Nat × Nat) : Nat :=
  (1868 * p.1 + 9617 * p.2.1 + 4899 * p.2.2 + 8192) / 16384

/-- `gray = cv2.cvtColor(image, cv2.COLOR_BGR2GRAY)` (line 33). -/
def cvtGray (img : Image) : GrayImage :=
  ⟨img.width, img.height, fun i j => bgr2gray (img.pix i j)⟩

/-- One pixel of `cv2.threshold(·, t, maxval, cv2.THRESH_BINARY_INV)`:
`dst = 0` when `src > t`, else `maxval` (OpenCV's documented semantics). -/
def thresh_binary_inv (t maxval p : Nat) : Nat :=
  if t < p then 0 else maxval

/-- `_, thresh = cv2.threshold(gray, 240, 255, cv2.THRESH_BINARY_INV)`
(line 37). -/
def thresholdImg (g : GrayImage) : GrayImage :=
  ⟨g.width, g.height, fun i j => thresh_binary_inv 240 255 (g.pix i j)⟩

/-- Python `int(...)` on a float: truncation toward zero. -/
def pyInt (q : ℚ) : ℤ := if q < 0 then ⌈q⌉ else ⌊q⌋

/-- NumPy basic-slicing index normalisation for an axis of length `n`:
a negative index counts from the end, and the result is clamped to `[0, n]`. -/
def sliceIdx (n : Nat) (i : ℤ) : ℤ :=
  if i < 0 then max 0 ((n : ℤ) + i) else min i (n : ℤ)

/-- Length of the NumPy slice `a[start:stop]` on an axis of length `n`
(step 1): clamp both endpoints with `sliceIdx`, empty when reversed. -/
def sliceLen (n : Nat) (start stop : ℤ) : Nat :=
  (sliceIdx n stop - sliceIdx n start).toNat

/-- The value returned by `cv2.minAreaRect`: `(cx, cy), (w, h), angle`
(line 57). -/
structure RotRect where
  cx : ℚ
  cy : ℚ
  w : ℚ
  h : ℚ
  angle : ℚ

/-- The integer crop-window geometry the script computes for one contour,
together with the 90°-rotation decision. -/
structure CropGeom where
  x : ℤ
  y : ℤ
  w : ℤ
  h : ℤ
  rot : Bool

/-- Lines 69–79 of `splitPhoto.py`, for a rotated frame of size `W × H`:
`w, h = int(w), int(h)`; `x = int(cx - w / 2)`; `y = int(cy - h / 2)`;
`w = min(rotated.shape[1] - x, w)`; `h = min(rotated.shape[0] - y, h)`;
and the rotation condition `w < h or angle > 45.0` (line 79), which the code
evaluates on the truncated, clamped `w`, `h`. -/
def cropGeom (W H : Nat) (r : RotRect) : CropGeom :=
  let w1 := pyInt r.w
  let h1 := pyInt r.h
  let x := pyInt (r.cx - (w1 : ℚ) / 2)
  let y := pyInt (r.cy - (h1 : ℚ) / 2)
  let w2 := min ((W : ℤ) - x) w1
  let h2 := min ((H : ℤ) - y) h1
  ⟨x, y, w2, h2, decide (w2 < h2) || decide (r.angle > 45)⟩

/-- `cropped = rotated[y : y + h, x : x + w]` (line 77), with NumPy's basic
slicing semantics on each axis. -/
def cropSlice (img : Image) (y x h w : ℤ) : Image :=
  { width := sliceLen img.width x (x + w)
    height := sliceLen img.height y (y + h)
    pix := fun i j =>
      img.pix ((sliceIdx img.height y).toNat + i) ((sliceIdx img.width x).toNat + j) }

/-- `cv2.rotate(·, cv2.ROTATE_90_CLOCKWISE)` (line 80): the output has the
transposed dimensions and `dst(i, j) = src(height - 1 - j, i)`. -/
def rotate90cw (img : Image) : Image :=
  { width := img.height
    height := img.width
    pix := fun i j => img.pix (img.height - 1 - j) i }

/-- A contour as returned by `cv2.findContours`: a list of integer points. -/
abbrev Contour := List (Nat × Nat)

/-- Abstract pixel content of `cv2.warpAffine(image, M, dsize)` where `M` is
the rotation matrix of `cv2.getRotationMatrix2D((cx, cy), angle, 1.0)`: a
function of the source image and the fitted rectangle.  Its pixel values are
irrelevant to every claim; its output size is fixed by the script's `dsize`
argument to `(image.shape[1], image.shape[0])` (line 64), which `mkCrop`
enforces. -/
abbrev WarpPix := Image → RotRect → Nat → Nat → Nat × Nat × Nat

/-- Lines 59–80 for one surviving contour: deskew-rotate the whole frame
(same size as the input, pixel values abstract), take the clamped crop window,
and rotate the crop 90° clockwise when `w < h or angle > 45.0`. -/
def mkCrop (wp : WarpPix) (image : Image) (r : RotRect) : Image :=
  let rotated : Image := ⟨image.width, image.height, wp image r⟩
  let g := cropGeom image.width image.height r
  let cropped := cropSlice rotated g.y g.x g.h g.w
  if g.rot then rotate90cw cropped else cropped

/-- The pure core of `find_subphotos_and_save` (lines 33–80): grayscale,
inverse threshold, contours (`fc` models `cv2.findContours` on the binary
image; `areaOf` models `cv2.contourArea`; `rectOf` models `cv2.minAreaRect`),
then for each contour the area filter `if area < min_contour_area: continue`
(line 50) followed by the crop construction. -/
def extractCrops (fc : GrayImage → List Contour) (wp : WarpPix)
    (areaOf : Contour → ℚ) (rectOf : Contour → RotRect)
    (min_contour_area : ℚ) (image : Image) : List Image :=
  let gray := cvtGray image
  let thresh := thresholdImg gray
  let contours := fc thresh
  (contours.filter (fun c => !decide (areaOf c < min_contour_area))).map
    (fun c => mkCrop wp image (rectOf c))

/-- Observable events of one run of `find_subphotos_and_save`, in order:
a saved sub-photo (`cv2.imwrite`, line 87) carrying the crop and its output
name, the decode-failure diagnostic (line 29), and the move of the input file
to the processed directory (line 90). -/
inductive Event where
  | saved : Image → String → Event
  | skip : Event
  | moved : Event

/-- Whether an event is the move of the input file. -/
def Event.isMoved : Event → Bool
  | .moved => true
  | _ => false

/-- The crop carried by a save event, if any. -/
def Event.getCrop : Event → Option Image
  | .saved c _ => some c
  | _ => none

/-- The sequence of crops a trace emits. -/
def cropsOf (tr : List Event) : List Image := tr.filterMap Event.getCrop

/-- The whole of `find_subphotos_and_save` (lines 8–94) as an event trace.
`decoded` is the result of `cv2.imread` (`none` models a failed decode,
line 28); `ids` models the per-crop identifier `f"{date_now}_{uuid.uuid4()}"`
(lines 82–83) as a function of the crop's position in the loop; `file_name`
is the source file's base name (line 44).  On decode failure the function
reports the skip and returns; otherwise it saves every surviving crop and
finally moves the input file (line 90). -/
def find_subphotos_and_save (fc : GrayImage → List Contour) (wp : WarpPix)
    (areaOf : Contour → ℚ) (rectOf : Contour → RotRect)
    (ids : Nat → String) (file_name : String)
    (min_contour_area : ℚ) (decoded : Option Image) : List Event :=
  match decoded with
  | none => [Event.skip]
  | some image =>
      let crops := extractCrops fc wp areaOf rectOf min_contour_area image
      (crops.enum.map fun p => Event.saved p.2 (file_name ++ "_" ++ ids p.1))
        ++ [Event.moved]

/-! Concrete inputs used by witnesses and counterexamples. -/

/-- A trivial deskew-pixel function (pixel values are irrelevant). -/
def wp0 : WarpPix := fun _ _ _ _ => (0, 0, 0)

/-- A 1000 × 1000 all-black source image. -/
def img0 : Image := ⟨1000, 1000, fun _ _ => (0, 0, 0)⟩

/-- A 1000-wide, 20-tall all-black source image. -/
def img5 : Image := ⟨1000, 20, fun _ _ => (0, 0, 0)⟩

/-- A 2 × 2 all-white source image. -/
def imgWhite : Image := ⟨2, 2, fun _ _ => (255, 255, 255)⟩

/-- A one-point contour standing in for a detected boundary. -/
def contour0 : Contour := [(0, 0)]

/-- Fitted rectangle with `w = 10 < h = 20`, `angle = 0`, whose crop window in
a 20-tall frame is clamped to a 10 × 10 square, so line 79 does not rotate. -/
def rect2 : RotRect := ⟨500, 20, 10, 20, 0⟩

/-- Fitted rectangle with `w = 10 < h = 11` and `angle = 50`, centred 3 px
above the bottom of a 20-tall frame: the window is clamped to 10 × 9 and the
`angle > 45` branch still rotates, emitting a 9-wide, 10-tall crop. -/
def rect5c : RotRect := ⟨500, 17, 10, 11, 50⟩

/-- Fitted rectangle with `w = 10 < h = 11`, far from every border, angle 0. -/
def rect5w : RotRect := ⟨500, 500, 10, 11, 0⟩

/-- Fitted rectangle whose centre minus half its width is `-1/2`: negative,
yet `int(-0.5) = 0`, so the crop's start coordinate is 0, not negative. -/
def rect10c : RotRect := ⟨0, 500, 1, 11, 0⟩

/-- Fitted rectangle centred on the left edge (`cx = 0`, `w = 4`): the crop
window starts at `x = -2` and NumPy's wrap-around makes the crop empty. -/
def rect10e : RotRect := ⟨0, 500, 4, 8, 0⟩

/-- The crops emitted for `rect5c` (area 1000000 ≥ threshold 80000). -/
def cex5crops : List Image :=
  extractCrops (fun _ => [contour0]) wp0 (fun _ => 1000000) (fun _ => rect5c)
    80000 img5

/-- The crops emitted for `rect10e` (area 1000000 ≥ threshold 80000). -/
def cex10crops : List Image :=
  extractCrops (fun _ => [contour0]) wp0 (fun _ => 1000000) (fun _ => rect10e)
    80000 img0

/-! Helper lemmas. -/

/-- `pyInt` of a non-negative rational is its floor. -/
theorem pyInt_of_nonneg {q : ℚ} (h : 0 ≤ q) : pyInt q = ⌊q⌋ := by
  unfold pyInt
  rw [if_neg (not_lt.2 h)]

/-- `pyInt` of a negative rational is its ceiling. -/
theorem pyInt_neg {q : ℚ} (h : q < 0) : pyInt q = ⌈q⌉ := by
  unfold pyInt
  rw [if_pos h]

/-- Evaluate `pyInt` on a non-negative rational from rational bounds. -/
theorem pyInt_eq_of_nonneg {q : ℚ} {n : ℤ} (h0 : 0 ≤ q) (h1 : (n : ℚ) ≤ q)
    (h2 : q < n + 1) : pyInt q = n := by
  rw [pyInt_of_nonneg h0]
  exact Int.floor_eq_iff.2 ⟨h1, by exact_mod_cast h2⟩

/-- Evaluate `pyInt` on a negative rational from rational bounds. -/
theorem pyInt_eq_of_neg {q : ℚ} {n : ℤ} (h0 : q < 0) (h1 : (n : ℚ) - 1 < q)
    (h2 : q ≤ n) : pyInt q = n := by
  unfold pyInt
  rw [if_pos h0]
  exact Int.ceil_eq_iff.2 ⟨by exact_mod_cast h1, h2⟩

/-- `pyInt` of a non-negative rational is non-negative. -/
theorem pyInt_nonneg {q : ℚ} (h : 0 ≤ q) : 0 ≤ pyInt q := by
  rw [pyInt_of_nonneg h]
  exact Int.floor_nonneg.2 h

/-- `pyInt` of a non-negative rational below an integer stays below it. -/
theorem pyInt_le_of_le {q : ℚ} {n : ℤ} (h0 : 0 ≤ q) (h : q ≤ (n : ℚ)) :
    pyInt q ≤ n := by
  rw [pyInt_of_nonneg h0]
  rw [show n = ⌊(n : ℚ)⌋ from (Int.floor_intCast n).symm]
  exact Int.floor_le_floor h

/-- A slice endpoint inside `[0, n]` is left unchanged. -/
theorem sliceIdx_of_bounds {n : Nat} {i : ℤ} (h0 : 0 ≤ i) (h1 : i ≤ (n : ℤ)) :
    sliceIdx n i = i := by
  unfold sliceIdx
  rw [if_neg (not_lt.2 h0)]
  exact min_eq_left h1

/-- The length of an in-range forward slice. -/
theorem sliceLen_of_bounds {n : Nat} {a b : ℤ} (h0 : 0 ≤ a) (hab : a ≤ b)
    (hb : b ≤ (n : ℤ)) : sliceLen n a b = (b - a).toNat := by
  unfold sliceLen
  rw [sliceIdx_of_bounds h0 (le_trans hab hb),
    sliceIdx_of_bounds (le_trans h0 hab) hb]

/-- Evaluate `cropGeom` once the four `pyInt` values are known. -/
theorem cropGeom_eval (W H : Nat) (r : RotRect) (w1 h1 x y : ℤ)
    (hw : pyInt r.w = w1) (hh : pyInt r.h = h1)
    (hx : pyInt (r.cx - (w1 : ℚ) / 2) = x)
    (hy : pyInt (r.cy - (h1 : ℚ) / 2) = y) :
    cropGeom W H r =
      ⟨x, y, min ((W : ℤ) - x) w1, min ((H : ℤ) - y) h1,
        decide (min ((W : ℤ) - x) w1 < min ((H : ℤ) - y) h1)
          || decide (r.angle > 45)⟩ := by
  simp only [cropGeom, hw, hh, hx, hy]

/-! Theorems for the claims. -/

/-- C1: a detected boundary is discarded exactly when its area is strictly
below `min_contour_area` (line 50: `if area < min_contour_area: continue`):
with a single detected contour of area `a` and threshold `t`, the pipeline
emits `0` crops when `a < t` and `1` crop otherwise; in particular area
`t - 1` gives no crop, area `t + 1` gives one crop, and area exactly `t` is
kept. -/
theorem c1_min_area_filter (wp : WarpPix) (image : Image)
    (rectOf : Contour → RotRect) (c0 : Contour) (t a : ℚ) :
    (extractCrops (fun _ => [c0]) wp (fun _ => a) rectOf t image).length
        = (if a < t then 0 else 1)
      ∧ (extractCrops (fun _ => [c0]) wp (fun _ => t - 1) rectOf t image).length
        = 0
      ∧ (extractCrops (fun _ => [c0]) wp (fun _ => t + 1) rectOf t image).length
        = 1
      ∧ (extractCrops (fun _ => [c0]) wp (fun _ => t) rectOf t image).length
        = 1 := by
  refine ⟨?_, ?_, ?_, ?_⟩
  · by_cases h : a < t
    · simp [extractCrops, h]
    · simp [extractCrops, h]
  · simp [extractCrops, sub_lt_self t one_pos]
  · simp [extractCrops, show ¬(t + 1 < t) from by linarith]
  · simp [extractCrops, lt_irrefl t]

/-- C1 witness: at threshold `t = 5` and a single contour of area `5`, the
crop is kept (area equal to the threshold is not discarded). -/
theorem c1_min_area_filter_witness :
    (extractCrops (fun _ => [contour0]) wp0 (fun _ => (5 : ℚ))
      (fun _ => rect5w) 5 img0).length = 1 :=
  (c1_min_area_filter wp0 img0 (fun _ => rect5w) contour0 5 5).2.2.2

/-- C3 counterexample: a pixel with luminance exactly 240 is mapped to 255
(foreground), not to 0 (background) as the claim states, because
`THRESH_BINARY_INV` zeroes only pixels strictly above the threshold. -/
theorem c3_counterexample :
    thresh_binary_inv 240 255 240 = 255 ∧ thresh_binary_inv 240 255 240 ≠ 0 := by
  decide

/-- C3 (amended): binarization maps every pixel with luminance strictly
greater than 240 to background (0) and every pixel with luminance at most 240
to foreground (255); a pixel with luminance exactly 240 becomes foreground. -/
theorem c3_threshold_amended (p : Nat) :
    (240 < p → thresh_binary_inv 240 255 p = 0)
      ∧ (p ≤ 240 → thresh_binary_inv 240 255 p = 255) := by
  constructor
  · intro h
    simp [thresh_binary_inv, h]
  · intro h
    simp [thresh_binary_inv, Nat.not_lt.2 h]

/-- C3 witness: luminance 241 becomes background, luminance 240 foreground. -/
theorem c3_threshold_amended_witness :
    thresh_binary_inv 240 255 241 = 0 ∧ thresh_binary_inv 240 255 240 = 255 :=
  ⟨(c3_threshold_amended 241).1 (by decide),
    (c3_threshold_amended 240).2 (by decide)⟩

/-- C4: for every fitted rectangle, the clamped crop window never extends past
the rotated frame's right or bottom edge (`x + w ≤ W` and `y + h ≤ H`, from
lines 74–75), and the clamping only ever shrinks the width and height taken
from the fitted size; no case is rejected (the function is total). -/
theorem c4_crop_window_clamped (W H : Nat) (r : RotRect) :
    (cropGeom W H r).x + (cropGeom W H r).w ≤ (W : ℤ)
      ∧ (cropGeom W H r).y + (cropGeom W H r).h ≤ (H : ℤ)
      ∧ (cropGeom W H r).w ≤ pyInt r.w
      ∧ (cropGeom W H r).h ≤ pyInt r.h := by
  simp only [cropGeom]
  refine ⟨?_, ?_, ?_, ?_⟩ <;> omega

/-- C6: when the decode fails (`cv2.imread` returns `None`, line 28), the run
reports exactly the skip diagnostic, emits zero crops, performs no move and no
save, and returns normally (the model is a total function). -/
theorem c6_decode_failure (fc : GrayImage → List Contour) (wp : WarpPix)
    (areaOf : Contour → ℚ) (rectOf : Contour → RotRect) (ids : Nat → String)
    (file_name : String) (t : ℚ) :
    find_subphotos_and_save fc wp areaOf rectOf ids file_name t none
        = [Event.skip]
      ∧ cropsOf (find_subphotos_and_save fc wp areaOf rectOf ids file_name t
          none) = [] :=
  ⟨rfl, rfl⟩

/-- C2 counterexample: for `rect2` (fitted `w = 10 < h = 20`, `angle = 0`) in
a 1000 × 20 frame, the claim predicts a 90° rotation (fitted width < fitted
height), but the code decides on the clamped integer window (10 × 10 here,
line 79) and does not rotate. -/
theorem c2_counterexample :
    rect2.w < rect2.h ∧ ¬ rect2.angle > 45
      ∧ (cropGeom 1000 20 rect2).rot = false := by
  have hw : pyInt rect2.w = 10 :=
    pyInt_eq_of_nonneg (by norm_num [rect2]) (by norm_num [rect2])
      (by norm_num [rect2])
  have hh : pyInt rect2.h = 20 :=
    pyInt_eq_of_nonneg (by norm_num [rect2]) (by norm_num [rect2])
      (by norm_num [rect2])
  have hx : pyInt (rect2.cx - ((10 : ℤ) : ℚ) / 2) = 495 :=
    pyInt_eq_of_nonneg (by norm_num [rect2]) (by norm_num [rect2])
      (by norm_num [rect2])
  have hy : pyInt (rect2.cy - ((20 : ℤ) : ℚ) / 2) = 10 :=
    pyInt_eq_of_nonneg (by norm_num [rect2]) (by norm_num [rect2])
      (by norm_num [rect2])
  refine ⟨by norm_num [rect2], by norm_num [rect2], ?_⟩
  rw [cropGeom_eval 1000 20 rect2 10 20 495 10 hw hh hx hy]
  norm_num [rect2]

/-- C2 (amended): the crop is rotated 90° clockwise iff the truncated,
edge-clamped integer window width is strictly less than its height, or the
fitted angle exceeds 45° — the comparison on line 79 happens after `int(...)`
truncation (line 69) and after the bottom/right clamping (lines 74–75), not
on the fitted float dimensions. -/
theorem c2_rotation_amended (W H : Nat) (r : RotRect) :
    (cropGeom W H r).rot = true
      ↔ ((cropGeom W H r).w < (cropGeom W H r).h ∨ r.angle > 45) := by
  simp [cropGeom]

/-- Save events carry no move: a mapped save list contains no move event. -/
theorem countP_isMoved_saves (l : List (Nat × Image))
    (g : Nat × Image → String) :
    (l.map fun p => Event.saved p.2 (g p)).countP Event.isMoved = 0 := by
  rw [List.countP_eq_zero]
  intro a ha
  obtain ⟨p, _, rfl⟩ := List.mem_map.1 ha
  simp [Event.isMoved]

/-- Extracting the crops of a mapped save list returns the crops. -/
theorem filterMap_saved (l : List (Nat × Image)) (g : Nat × Image → String) :
    List.filterMap Event.getCrop (l.map fun p => Event.saved p.2 (g p))
      = l.map fun p => p.2 := by
  induction l with
  | nil => rfl
  | cons a l ih => simp [List.filterMap_cons, Event.getCrop, ih]

/-- The crops of a full successful trace are exactly the emitted crops,
whatever names the saves carry. -/
theorem cropsOf_trace (crops : List Image) (g : Nat × Image → String) :
    cropsOf ((crops.enum.map fun p => Event.saved p.2 (g p)) ++ [Event.moved])
      = crops := by
  unfold cropsOf
  rw [List.filterMap_append, filterMap_saved]
  simp [Event.getCrop, List.enum_map_snd]

/-- C9: after a successful decode the input file is moved exactly once, as the
last event of the run — hence after every crop has been emitted — even when
zero sub-photos are detected; on decode failure it is not moved at all. -/
theorem c9_move_exactly_once (fc : GrayImage → List Contour) (wp : WarpPix)
    (areaOf : Contour → ℚ) (rectOf : Contour → RotRect) (ids : Nat → String)
    (file_name : String) (t : ℚ) (image : Image) :
    ((find_subphotos_and_save fc wp areaOf rectOf ids file_name t
        (some image)).countP Event.isMoved = 1
      ∧ (find_subphotos_and_save fc wp areaOf rectOf ids file_name t
          (some image)).getLast? = some Event.moved
      ∧ ∀ e ∈ (find_subphotos_and_save fc wp areaOf rectOf ids file_name t
          (some image)).dropLast, e.isMoved = false)
      ∧ (find_subphotos_and_save fc wp areaOf rectOf ids file_name t
          none).countP Event.isMoved = 0 := by
  refine ⟨⟨?_, ?_, ?_⟩, ?_⟩
  · simp only [find_subphotos_and_save, List.countP_append,
      countP_isMoved_saves]
    simp [List.countP_cons, Event.isMoved]
  · simp only [find_subphotos_and_save]
    exact List.getLast?_concat _
  · simp only [find_subphotos_and_save]
    rw [List.dropLast_concat]
    intro e he
    obtain ⟨p, _, rfl⟩ := List.mem_map.1 he
    simp [Event.isMoved]
  · simp [find_subphotos_and_save, List.countP_cons, Event.isMoved]

/-- C8: the sequence of emitted crop images is a function of the decoded pixel
data alone: two runs differing only in the generated identifiers (timestamp
and uuid, lines 82–83) emit identical crop pixel content. -/
theorem c8_deterministic_crops (fc : GrayImage → List Contour) (wp : WarpPix)
    (areaOf : Contour → ℚ) (rectOf : Contour → RotRect)
    (file_name : String) (t : ℚ) (ids1 ids2 : Nat → String)
    (input : Option Image) :
    cropsOf (find_subphotos_and_save fc wp areaOf rectOf ids1 file_name t
        input)
      = cropsOf (find_subphotos_and_save fc wp areaOf rectOf ids2 file_name t
        input) := by
  cases input with
  | none => rfl
  | some image =>
      simp only [find_subphotos_and_save]
      rw [cropsOf_trace, cropsOf_trace]

/-- C7: on an all-white image every thresholded pixel is 0, so — given
`cv2.findContours`'s contract that every returned contour contains a nonzero
pixel of its input — no contour is found and zero crops are emitted; the run
is a total function (no error). -/
theorem c7_all_white (fc : GrayImage → List Contour) (wp : WarpPix)
    (areaOf : Contour → ℚ) (rectOf : Contour → RotRect) (ids : Nat → String)
    (file_name : String) (t : ℚ) (image : Image)
    (hfc : ∀ b : GrayImage, ∀ c ∈ fc b, ∃ p ∈ c, b.pix p.1 p.2 ≠ 0)
    (hwhite : ∀ i j, image.pix i j = (255, 255, 255)) :
    cropsOf (find_subphotos_and_save fc wp areaOf rectOf ids file_name t
      (some image)) = [] := by
  have hthresh : ∀ i j, (thresholdImg (cvtGray image)).pix i j = 0 := by
    intro i j
    norm_num [thresholdImg, cvtGray, hwhite, bgr2gray, thresh_binary_inv]
  have hempty : fc (thresholdImg (cvtGray image)) = [] := by
    rcases h : fc (thresholdImg (cvtGray image)) with _ | ⟨c, cs⟩
    · rfl
    · obtain ⟨p, _, hne⟩ := hfc _ c (h ▸ List.mem_cons_self c cs)
      exact absurd (hthresh p.1 p.2) hne
  simp [find_subphotos_and_save, extractCrops, hempty, cropsOf, Event.getCrop]

/-- C7 witness: a concrete 2 × 2 all-white image with a contour finder that
satisfies the contract yields zero crops. -/
theorem c7_all_white_witness :
    cropsOf (find_subphotos_and_save (fun _ => []) wp0 (fun _ => 0)
      (fun _ => rect5w) (fun _ => "") "" 80000 (some imgWhite)) = [] :=
  c7_all_white (fun _ => []) wp0 (fun _ => 0) (fun _ => rect5w) (fun _ => "")
    "" 80000 imgWhite (by simp) (fun _ _ => rfl)

/-- Definitional reading of the crop window's left coordinate (line 70). -/
theorem cropGeom_x_eq (W H : Nat) (r : RotRect) :
    (cropGeom W H r).x = pyInt (r.cx - (pyInt r.w : ℚ) / 2) := rfl

/-- Definitional reading of the crop window's top coordinate (line 71). -/
theorem cropGeom_y_eq (W H : Nat) (r : RotRect) :
    (cropGeom W H r).y = pyInt (r.cy - (pyInt r.h : ℚ) / 2) := rfl

/-- Definitional reading of the clamped width (line 74). -/
theorem cropGeom_w_eq (W H : Nat) (r : RotRect) :
    (cropGeom W H r).w
      = min ((W : ℤ) - (cropGeom W H r).x) (pyInt r.w) := rfl

/-- Definitional reading of the clamped height (line 75). -/
theorem cropGeom_h_eq (W H : Nat) (r : RotRect) :
    (cropGeom W H r).h
      = min ((H : ℤ) - (cropGeom W H r).y) (pyInt r.h) := rfl

/-- Definitional reading of the rotation decision (line 79). -/
theorem cropGeom_rot_eq (W H : Nat) (r : RotRect) :
    (cropGeom W H r).rot
      = (decide ((cropGeom W H r).w < (cropGeom W H r).h)
          || decide (r.angle > 45)) := rfl

/-- `mkCrop` unfolded through its crop geometry. -/
theorem mkCrop_eq (wp : WarpPix) (image : Image) (r : RotRect) :
    mkCrop wp image r
      = if (cropGeom image.width image.height r).rot then
          rotate90cw (cropSlice ⟨image.width, image.height, wp image r⟩
            (cropGeom image.width image.height r).y
            (cropGeom image.width image.height r).x
            (cropGeom image.width image.height r).h
            (cropGeom image.width image.height r).w)
        else
          cropSlice ⟨image.width, image.height, wp image r⟩
            (cropGeom image.width image.height r).y
            (cropGeom image.width image.height r).x
            (cropGeom image.width image.height r).h
            (cropGeom image.width image.height r).w := rfl

/-- The 90°-rotated crop has the source's height as width. -/
theorem rotate90cw_width (i : Image) : (rotate90cw i).width = i.height := rfl

/-- The 90°-rotated crop has the source's width as height. -/
theorem rotate90cw_height (i : Image) : (rotate90cw i).height = i.width := rfl

/-- Dimensions of an in-range crop window. -/
theorem cropSlice_dims (img : Image) (y x h w : ℤ)
    (hx0 : 0 ≤ x) (hw0 : 0 ≤ w) (hxw : x + w ≤ (img.width : ℤ))
    (hy0 : 0 ≤ y) (hh0 : 0 ≤ h) (hyh : y + h ≤ (img.height : ℤ)) :
    (cropSlice img y x h w).width = w.toNat
      ∧ (cropSlice img y x h w).height = h.toNat := by
  constructor
  · show sliceLen img.width x (x + w) = w.toNat
    rw [sliceLen_of_bounds hx0 (by omega) hxw]
    omega
  · show sliceLen img.height y (y + h) = h.toNat
    rw [sliceLen_of_bounds hy0 (by omega) hyh]
    omega

/-- C5 (amended): for a fitted rectangle whose crop window starts inside the
frame (centre at least half the truncated size away from the left and top
edges, centre within the frame) and whose fitted angle is at most 45°, the
emitted crop's pixel height never exceeds its pixel width; in particular the
landscape invariant holds for such regions with fitted `w < h`.  (The
counterexample shows it fails once clamping and the `angle > 45` branch
interact, so the claim's unconditional form is false.) -/
theorem c5_landscape_amended (wp : WarpPix) (image : Image) (r : RotRect)
    (hw0 : 0 ≤ r.w) (hh0 : 0 ≤ r.h)
    (hcx1 : (pyInt r.w : ℚ) / 2 ≤ r.cx) (hcx2 : r.cx ≤ (image.width : ℚ))
    (hcy1 : (pyInt r.h : ℚ) / 2 ≤ r.cy) (hcy2 : r.cy ≤ (image.height : ℚ))
    (hang : r.angle ≤ 45) (hwh : r.w < r.h) :
    (mkCrop wp image r).height ≤ (mkCrop wp image r).width := by
  have hw1 : 0 ≤ pyInt r.w := pyInt_nonneg hw0
  have hh1 : 0 ≤ pyInt r.h := pyInt_nonneg hh0
  have hw1q : (0 : ℚ) ≤ (pyInt r.w : ℚ) := by exact_mod_cast hw1
  have hh1q : (0 : ℚ) ≤ (pyInt r.h : ℚ) := by exact_mod_cast hh1
  have hqx : (0 : ℚ) ≤ r.cx - (pyInt r.w : ℚ) / 2 := by linarith
  have hqy : (0 : ℚ) ≤ r.cy - (pyInt r.h : ℚ) / 2 := by linarith
  have hx0 : 0 ≤ (cropGeom image.width image.height r).x := by
    rw [cropGeom_x_eq]
    exact pyInt_nonneg hqx
  have hy0 : 0 ≤ (cropGeom image.width image.height r).y := by
    rw [cropGeom_y_eq]
    exact pyInt_nonneg hqy
  have hxW : (cropGeom image.width image.height r).x ≤ (image.width : ℤ) := by
    rw [cropGeom_x_eq]
    refine pyInt_le_of_le hqx ?_
    push_cast
    linarith
  have hyH : (cropGeom image.width image.height r).y
      ≤ (image.height : ℤ) := by
    rw [cropGeom_y_eq]
    refine pyInt_le_of_le hqy ?_
    push_cast
    linarith
  have hw2 : 0 ≤ (cropGeom image.width image.height r).w := by
    rw [cropGeom_w_eq]
    omega
  have hh2 : 0 ≤ (cropGeom image.width image.height r).h := by
    rw [cropGeom_h_eq]
    omega
  have hxw : (cropGeom image.width image.height r).x
      + (cropGeom image.width image.height r).w ≤ (image.width : ℤ) := by
    rw [cropGeom_w_eq]
    omega
  have hyh : (cropGeom image.width image.height r).y
      + (cropGeom image.width image.height r).h ≤ (image.height : ℤ) := by
    rw [cropGeom_h_eq]
    omega
  have hdim := cropSlice_dims ⟨image.width, image.height, wp image r⟩
    (cropGeom image.width image.height r).y
    (cropGeom image.width image.height r).x
    (cropGeom image.width image.height r).h
    (cropGeom image.width image.height r).w
    hx0 hw2 hxw hy0 hh2 hyh
  rw [mkCrop_eq]
  rcases hrot : (cropGeom image.width image.height r).rot with _ | _
  · rw [if_neg Bool.false_ne_true]
    rw [hdim.1, hdim.2]
    have heq := cropGeom_rot_eq image.width image.height r
    rw [hrot] at heq
    obtain ⟨ha, _⟩ := Bool.or_eq_false_iff.1 heq.symm
    have hnlt := of_decide_eq_false ha
    omega
  · rw [if_pos rfl]
    rw [rotate90cw_height, rotate90cw_width, hdim.1, hdim.2]
    have heq := cropGeom_rot_eq image.width image.height r
    rw [hrot] at heq
    have hangd : decide (r.angle > 45) = false := decide_eq_false (not_lt.2 hang)
    rw [hangd, Bool.or_false] at heq
    have hlt := of_decide_eq_true heq.symm
    omega

/-- C5 witness: for `rect5w` (fitted `10 < 11`, angle 0, centred in a
1000 × 1000 frame) the emitted crop is 11 wide and 10 tall. -/
theorem c5_landscape_amended_witness :
    (mkCrop wp0 img0 rect5w).height ≤ (mkCrop wp0 img0 rect5w).width := by
  have hw : pyInt rect5w.w = 10 :=
    pyInt_eq_of_nonneg (by norm_num [rect5w]) (by norm_num [rect5w])
      (by norm_num [rect5w])
  have hh : pyInt rect5w.h = 11 :=
    pyInt_eq_of_nonneg (by norm_num [rect5w]) (by norm_num [rect5w])
      (by norm_num [rect5w])
  exact c5_landscape_amended wp0 img0 rect5w (by norm_num [rect5w])
    (by norm_num [rect5w]) (by rw [hw]; norm_num [rect5w])
    (by norm_num [rect5w, img0]) (by rw [hh]; norm_num [rect5w])
    (by norm_num [rect5w, img0]) (by norm_num [rect5w]) (by norm_num [rect5w])

/-- C5 counterexample: `rect5c` has fitted `w = 10 < h = 11`, qualifies
(area 1000000 ≥ threshold 80000), and the single emitted crop is 9 wide and
10 tall — pixel width strictly below pixel height, refuting the claim.  The
window is clamped at the bottom edge to height 9 (lines 74–75), yet the
`angle > 45` branch still rotates the crop 90°. -/
theorem c5_counterexample :
    rect5c.w < rect5c.h ∧ cex5crops.length = 1
      ∧ cex5crops.map Image.width = [9]
      ∧ cex5crops.map Image.height = [10] := by
  have hw : pyInt rect5c.w = 10 :=
    pyInt_eq_of_nonneg (by norm_num [rect5c]) (by norm_num [rect5c])
      (by norm_num [rect5c])
  have hh : pyInt rect5c.h = 11 :=
    pyInt_eq_of_nonneg (by norm_num [rect5c]) (by norm_num [rect5c])
      (by norm_num [rect5c])
  have hx : pyInt (rect5c.cx - ((10 : ℤ) : ℚ) / 2) = 495 :=
    pyInt_eq_of_nonneg (by norm_num [rect5c]) (by norm_num [rect5c])
      (by norm_num [rect5c])
  have hy : pyInt (rect5c.cy - ((11 : ℤ) : ℚ) / 2) = 11 :=
    pyInt_eq_of_nonneg (by norm_num [rect5c]) (by norm_num [rect5c])
      (by norm_num [rect5c])
  have hg : cropGeom img5.width img5.height rect5c = ⟨495, 11, 10, 9, true⟩ := by
    show cropGeom 1000 20 rect5c = _
    rw [cropGeom_eval 1000 20 rect5c 10 11 495 11 hw hh hx hy]
    simp only [CropGeom.mk.injEq]
    exact ⟨trivial, trivial, by decide, by decide, by decide⟩
  have hlist : cex5crops = [mkCrop wp0 img5 rect5c] := by
    simp [cex5crops, extractCrops,
      decide_eq_false (show ¬ ((1000000 : ℚ) < 80000) by norm_num)]
  have hwidth : (mkCrop wp0 img5 rect5c).width = 9 := by
    rw [mkCrop_eq wp0 img5 rect5c, hg]
    decide
  have hheight : (mkCrop wp0 img5 rect5c).height = 10 := by
    rw [mkCrop_eq wp0 img5 rect5c, hg]
    decide
  refine ⟨by norm_num [rect5c], ?_, ?_, ?_⟩ <;>
    simp [hlist, hwidth, hheight]

/-- C10 counterexample: for `rect10c` the fitted centre minus half the fitted
width is `-1/2`, which is negative, yet the computed start coordinate is
`int(-0.5) = 0` — not negative — because Python's `int` truncates toward
zero.  The claim's "negative start coordinate whenever centre minus half size
is negative" is therefore false as stated. -/
theorem c10_counterexample :
    rect10c.cx - rect10c.w / 2 < 0
      ∧ ¬ (cropGeom 1000 1000 rect10c).x < 0 := by
  constructor
  · norm_num [rect10c]
  · have hw : pyInt rect10c.w = 1 :=
      pyInt_eq_of_nonneg (by norm_num [rect10c]) (by norm_num [rect10c])
        (by norm_num [rect10c])
    have hx : pyInt (rect10c.cx - ((1 : ℤ) : ℚ) / 2) = 0 :=
      pyInt_eq_of_neg (by norm_num [rect10c]) (by norm_num [rect10c])
        (by norm_num [rect10c])
    rw [cropGeom_x_eq, hw, hx]
    decide

/-- C10 (amended): the crop window's start coordinates are never clamped at
the image's left/top edge: whenever the fitted centre is at least one pixel
more than half the truncated size beyond the left (resp. top) border, the
window start is strictly negative (values between −1 and 0 truncate to 0);
and the crop is then taken from the negative start with NumPy semantics, so
the emitted crop can be empty — for `rect10e` the single emitted crop has
height 0 — with no error raised (the model is total). -/
theorem c10_no_left_top_clamp_amended :
    (∀ (W H : Nat) (r : RotRect),
        r.cx - (pyInt r.w : ℚ) / 2 ≤ -1 → (cropGeom W H r).x < 0)
      ∧ (∀ (W H : Nat) (r : RotRect),
        r.cy - (pyInt r.h : ℚ) / 2 ≤ -1 → (cropGeom W H r).y < 0)
      ∧ cex10crops.map Image.height = [0]
      ∧ cex10crops.map Image.width = [8] := by
  refine ⟨?_, ?_, ?_, ?_⟩
  · intro W H r hle
    have h0 : r.cx - (pyInt r.w : ℚ) / 2 < 0 := lt_of_le_of_lt hle (by norm_num)
    rw [cropGeom_x_eq, pyInt_neg h0]
    have hc : ⌈r.cx - (pyInt r.w : ℚ) / 2⌉ ≤ -1 :=
      Int.ceil_le.2 (by exact_mod_cast hle)
    omega
  · intro W H r hle
    have h0 : r.cy - (pyInt r.h : ℚ) / 2 < 0 := lt_of_le_of_lt hle (by norm_num)
    rw [cropGeom_y_eq, pyInt_neg h0]
    have hc : ⌈r.cy - (pyInt r.h : ℚ) / 2⌉ ≤ -1 :=
      Int.ceil_le.2 (by exact_mod_cast hle)
    omega
  all_goals {
    have hw : pyInt rect10e.w = 4 :=
      pyInt_eq_of_nonneg (by norm_num [rect10e]) (by norm_num [rect10e])
        (by norm_num [rect10e])
    have hh : pyInt rect10e.h = 8 :=
      pyInt_eq_of_nonneg (by norm_num [rect10e]) (by norm_num [rect10e])
        (by norm_num [rect10e])
    have hx : pyInt (rect10e.cx - ((4 : ℤ) : ℚ) / 2) = -2 :=
      pyInt_eq_of_neg (by norm_num [rect10e]) (by norm_num [rect10e])
        (by norm_num [rect10e])
    have hy : pyInt (rect10e.cy - ((8 : ℤ) : ℚ) / 2) = 496 :=
      pyInt_eq_of_nonneg (by norm_num [rect10e]) (by norm_num [rect10e])
        (by norm_num [rect10e])
    have hg : cropGeom img0.width img0.height rect10e
        = ⟨-2, 496, 4, 8, true⟩ := by
      show cropGeom 1000 1000 rect10e = _
      rw [cropGeom_eval 1000 1000 rect10e 4 8 (-2) 496 hw hh hx hy]
      simp only [CropGeom.mk.injEq]
      exact ⟨trivial, trivial, by decide, by decide, by decide⟩
    have hlist : cex10crops = [mkCrop wp0 img0 rect10e] := by
      simp [cex10crops, extractCrops,
        decide_eq_false (show ¬ ((1000000 : ℚ) < 80000) by norm_num)]
    have hht : (mkCrop wp0 img0 rect10e).height = 0 := by
      rw [mkCrop_eq wp0 img0 rect10e, hg]
      decide
    have hwd : (mkCrop wp0 img0 rect10e).width = 8 := by
      rw [mkCrop_eq wp0 img0 rect10e, hg]
      decide
    simp [hlist, hht, hwd]
  }

/-- C10 witness: `rect10e` sits two pixels past the left border, and its
window start coordinate is indeed negative. -/
theorem c10_no_left_top_clamp_amended_witness :
    (cropGeom 1000 1000 rect10e).x < 0 := by
  have hw : pyInt rect10e.w = 4 :=
    pyInt_eq_of_nonneg (by norm_num [rect10e]) (by norm_num [rect10e])
      (by norm_num [rect10e])
  exact c10_no_left_top_clamp_amended.1 1000 1000 rect10e
    (by rw [hw]; norm_num [rect10e])
